import Mathlib

/-!
Shallow embedding of the ReelOnGo one-to-one messaging service
(conversation resolver, message lifecycle handlers, session registry,
presence authorization, realtime event router), translated from the
TypeScript/JavaScript source, together with theorems checking the
specification's claims against it.

Conventions of the embedding:
* MongoDB ObjectIds and user/conversation/message identifiers are `String`s.
* Timestamps (`Date`) are `Nat` milliseconds.
* A Mongo collection is a `List` of documents; `findOne` is `List.find?`
  in insertion order, `create` appends, and `save` replaces the document
  with the same `_id`.
* JavaScript string falsiness (`!s`) is `s = ""`.
-/

namespace ReelOnGo

/-- Embeds mongoose `Types.ObjectId.isValid` on string inputs: a 12-character
string (12-byte buffer-like) or a 24-character hex string is valid. -/
def isValidObjectId (s : String) : Bool :=
  s.length == 12 ||
    (s.length == 24 && s.data.all (fun c =>
      c.isDigit || ("abcdef".data.contains c) || ("ABCDEF".data.contains c)))

/-- Conversation document (src/models/Conversation.ts). -/
structure Conversation where
  id : String
  participants : List String
  participantKey : String
  hiddenFor : List String
  lastMessageText : String
  lastMessageAt : Nat
  deriving Repr, DecidableEq

/-- Message document (src/models/Message.ts, as used by the handlers). -/
structure Message where
  id : String
  conversationId : String
  senderId : String
  recipientId : String
  text : String
  readBy : List String
  hiddenFor : List String
  isDeletedForEveryone : Bool
  deletedAt : Option Nat
  createdAt : Nat
  deriving Repr, DecidableEq

/-- User document, the fields the realtime/messaging layer touches
(src/models/User.ts). -/
structure UserRecord where
  id : String
  isOnline : Bool
  lastSeen : Nat
  deriving Repr, DecidableEq

/-- Code-unit lexicographic order on character lists: the comparison that
the default `Array.prototype.sort` applies to strings. -/
def charListLt : List Char → List Char → Bool
  | [], [] => false
  | [], _ :: _ => true
  | _ :: _, [] => false
  | a :: as, b :: bs => if a < b then true else if b < a then false else charListLt as bs

/-- `a` sorts no later than `b` under the JS string comparison. -/
def strLe (a b : String) : Bool := !(charListLt b.data a.data)

/-- Embeds `buildParticipantKey` (src/lib/conversation.ts):
`[a, b].sort().join(":")`.  The default sort on a two-element string array
keeps `[a, b]` when `a` compares no greater than `b` and swaps otherwise. -/
def buildParticipantKey (a b : String) : String :=
  if strLe a b then a ++ ":" ++ b else b ++ ":" ++ a

/-- JS `String.prototype.trim`, on the character list. -/
def jsTrim (s : String) : String :=
  ⟨((s.data.dropWhile Char.isWhitespace).reverse.dropWhile Char.isWhitespace).reverse⟩

/-- JS `String.prototype.toLowerCase` (ASCII range, as used for mode flags). -/
def jsToLower (s : String) : String := ⟨s.data.map Char.toLower⟩

/-- JS `String.prototype.slice(0, n)`. -/
def jsSlice (s : String) (n : Nat) : String := ⟨s.data.take n⟩

theorem string_data_eq {a b : String} (h : a.data = b.data) : a = b := by
  cases a; cases b; exact congrArg String.mk h

theorem charListLt_asymm : ∀ a b, charListLt a b = true → charListLt b a = false
  | [], [], h => by simp [charListLt] at h
  | [], _ :: _, _ => by simp [charListLt]
  | _ :: _, [], h => by simp [charListLt] at h
  | a :: as, b :: bs, h => by
    by_cases hab : a < b
    · have hba : ¬ b < a := lt_asymm hab
      simp [charListLt, hab, hba]
    · by_cases hba : b < a
      · simp [charListLt, hab, hba] at h
      · have h' : charListLt as bs = true := by simpa [charListLt, hab, hba] using h
        simpa [charListLt, hab, hba] using charListLt_asymm as bs h'

theorem charListLt_both_false_eq : ∀ a b, charListLt a b = false → charListLt b a = false → a = b
  | [], [], _, _ => rfl
  | [], _ :: _, h, _ => by simp [charListLt] at h
  | _ :: _, [], _, h2 => by simp [charListLt] at h2
  | a :: as, b :: bs, h1, h2 => by
    by_cases hab : a < b
    · simp [charListLt, hab] at h1
    · by_cases hba : b < a
      · simp [charListLt, hba] at h2
      · have heq : a = b := le_antisymm (le_of_not_lt hba) (le_of_not_lt hab)
        have h1' : charListLt as bs = false := by simpa [charListLt, hab, hba] using h1
        have h2' : charListLt bs as = false := by simpa [charListLt, hab, hba] using h2
        rw [heq, charListLt_both_false_eq as bs h1' h2']

/-- `Conversation.findOne({ participantKey })` over the collection. -/
def findOneByKey (db : List Conversation) (key : String) : Option Conversation :=
  db.find? (fun c => c.participantKey == key)

/-- Embeds `getOrCreateConversation(userA, userB)` (src/lib/conversation.ts).
`userA` is the current caller; `freshId`/`now` stand for the `_id` and
`new Date()` the create would produce.  Returns the resolved conversation
and the updated collection. -/
def getOrCreateConversation (userA userB : String) (freshId : String) (now : Nat)
    (db : List Conversation) : Conversation × List Conversation :=
  let participantKey := buildParticipantKey userA userB
  match findOneByKey db participantKey with
  | none =>
      let c : Conversation :=
        { id := freshId, participants := [userA, userB], participantKey := participantKey,
          hiddenFor := [], lastMessageAt := now, lastMessageText := "" }
      (c, db ++ [c])
  | some c =>
      if c.hiddenFor.contains userA then
        let c' := { c with hiddenFor := c.hiddenFor.filter (fun u => u ≠ userA) }
        (c', db.map (fun d => if d.id == c.id then c' else d))
      else
        (c, db)

theorem buildParticipantKey_comm (a b : String) :
    buildParticipantKey a b = buildParticipantKey b a := by
  unfold buildParticipantKey strLe
  cases hba : charListLt b.data a.data with
  | false =>
    cases hab : charListLt a.data b.data with
    | false =>
      have : a = b := string_data_eq (charListLt_both_false_eq _ _ hab hba)
      rw [this]
    | true => simp [hab, hba]
  | true =>
    have hab : charListLt a.data b.data = false := charListLt_asymm _ _ hba
    simp [hab, hba]

theorem find?_append_of_none {α : Type} (p : α → Bool) :
    ∀ (l₁ l₂ : List α), l₁.find? p = none → (l₁ ++ l₂).find? p = l₂.find? p
  | [], _, _ => rfl
  | a :: l₁, l₂, h => by
    cases hpa : p a with
    | true =>
      rw [List.find?_cons_of_pos _ hpa] at h
      exact absurd h (by simp)
    | false =>
      rw [List.find?_cons_of_neg _ (by simp [hpa])] at h
      rw [List.cons_append, List.find?_cons_of_neg _ (by simp [hpa])]
      exact find?_append_of_none p l₁ l₂ h

theorem findOneByKey_some {db : List Conversation} {k : String} {c : Conversation}
    (h : findOneByKey db k = some c) : c.participantKey = k := by
  unfold findOneByKey at h
  have hp := List.find?_some h
  exact eq_of_beq hp

/-- After replacing (by `_id`) the conversation found by `participantKey`
with one carrying the same key and id, a lookup by that key still finds a
conversation with the same id. -/
theorem find?_key_after_save (k : String) (c c' : Conversation)
    (hkey : c'.participantKey = c.participantKey) (hid : c'.id = c.id) :
    ∀ (db : List Conversation),
      db.find? (fun d => d.participantKey == k) = some c →
      ∃ c'', (db.map (fun d => if d.id == c.id then c' else d)).find?
          (fun d => d.participantKey == k) = some c'' ∧ c''.id = c.id
  | [], hfind => by simp [List.find?] at hfind
  | d :: db, hfind => by
    have hck := List.find?_some hfind
    rw [List.map_cons]
    by_cases hdid : (d.id == c.id) = true
    · refine ⟨c', ?_, hid⟩
      have hpk : (c'.participantKey == k) = true := by
        rw [hkey]; exact hck
      rw [if_pos hdid]
      exact List.find?_cons_of_pos _ hpk
    · rw [if_neg hdid]
      cases hpd : (d.participantKey == k) with
      | true =>
        have hdc : d = c := by
          have := List.find?_cons_of_pos (p := fun d => d.participantKey == k) db hpd
          rw [this] at hfind
          exact Option.some.inj hfind
        exact absurd (by rw [hdc]; simp) hdid
      | false =>
        have hfind' : db.find? (fun d => d.participantKey == k) = some c := by
          have := List.find?_cons_of_neg (p := fun d => d.participantKey == k) (a := d)
            db (by simp [hpd])
          rw [this] at hfind
          exact hfind
        obtain ⟨c'', h1, h2⟩ := find?_key_after_save k c c' hkey hid db hfind'
        refine ⟨c'', ?_, h2⟩
        rw [List.find?_cons_of_neg (a := d) _ (by simp [hpd]), h1]

/-- The conversation returned by `getOrCreateConversation` carries the
participant key of its two arguments. -/
theorem getOrCreateConversation_key (A B f : String) (n : Nat)
    (db : List Conversation) :
    (getOrCreateConversation A B f n db).1.participantKey = buildParticipantKey A B := by
  simp only [getOrCreateConversation]
  cases hfind : findOneByKey db (buildParticipantKey A B) with
  | none => rfl
  | some c =>
    have hck : c.participantKey = buildParticipantKey A B := findOneByKey_some hfind
    dsimp only
    by_cases hh : c.hiddenFor.contains A = true
    · rw [if_pos hh]; exact hck
    · rw [if_neg hh]; exact hck

/-- After a `getOrCreateConversation` call, a lookup by the pair's
participant key finds a conversation with the id the call returned. -/
theorem findOneByKey_after_getOrCreate (A B f : String) (n : Nat)
    (db : List Conversation) :
    ∃ c'', findOneByKey (getOrCreateConversation A B f n db).2 (buildParticipantKey A B)
        = some c'' ∧ c''.id = (getOrCreateConversation A B f n db).1.id := by
  simp only [getOrCreateConversation]
  cases hfind : findOneByKey db (buildParticipantKey A B) with
  | none =>
    refine ⟨_, ?_, rfl⟩
    unfold findOneByKey at hfind ⊢
    dsimp only
    rw [find?_append_of_none _ db _ hfind]
    simp [List.find?]
  | some c =>
    dsimp only
    by_cases hh : c.hiddenFor.contains A = true
    · rw [if_pos hh]
      unfold findOneByKey at hfind ⊢
      dsimp only
      exact find?_key_after_save (buildParticipantKey A B) c
        { c with hiddenFor := c.hiddenFor.filter (fun u => u ≠ A) } rfl rfl db hfind
    · rw [if_neg hh]
      exact ⟨c, hfind, rfl⟩

/-- C2: `getOrCreateConversation` is order-independent in its two user
arguments: the participant key is symmetric, both calls return a
conversation with that key, and running the two calls in sequence resolves
to the same conversation (same `_id`) without creating a second document. -/
theorem getOrCreateConversation_order_independent
    (A B f1 f2 : String) (n1 n2 : Nat) (db : List Conversation) :
    buildParticipantKey A B = buildParticipantKey B A ∧
    (getOrCreateConversation A B f1 n1 db).1.participantKey = buildParticipantKey A B ∧
    (getOrCreateConversation B A f2 n2
        (getOrCreateConversation A B f1 n1 db).2).1.participantKey
      = buildParticipantKey A B ∧
    (getOrCreateConversation B A f2 n2
        (getOrCreateConversation A B f1 n1 db).2).1.id
      = (getOrCreateConversation A B f1 n1 db).1.id ∧
    (getOrCreateConversation B A f2 n2
        (getOrCreateConversation A B f1 n1 db).2).2.length
      = (getOrCreateConversation A B f1 n1 db).2.length := by
  obtain ⟨c'', hfind, hid⟩ := findOneByKey_after_getOrCreate A B f1 n1 db
  have hcomm := buildParticipantKey_comm A B
  have hkey1 := getOrCreateConversation_key A B f1 n1 db
  set r1 := getOrCreateConversation A B f1 n1 db with hr1
  have hfind' : findOneByKey r1.2 (buildParticipantKey B A) = some c'' := by
    rw [← hcomm]; exact hfind
  refine ⟨hcomm, hkey1, ?_, ?_, ?_⟩
  · rw [getOrCreateConversation_key B A f2 n2, ← hcomm]
  · simp only [getOrCreateConversation]
    rw [hfind']
    dsimp only
    by_cases hh : c''.hiddenFor.contains B = true
    · rw [if_pos hh]; exact hid
    · rw [if_neg hh]; exact hid
  · simp only [getOrCreateConversation]
    rw [hfind']
    dsimp only
    by_cases hh : c''.hiddenFor.contains B = true
    · rw [if_pos hh]; exact List.length_map _ _
    · rw [if_neg hh]

/-! ## Concurrent first contact (src/lib/conversation.ts, unique index on participantKey) -/

inductive DbError
  | duplicateKey
  deriving Repr, DecidableEq

/-- `Conversation.create` against the unique index on `participantKey`
(src/models/Conversation.ts): inserting a document whose key is already
present raises a duplicate-key error instead of inserting. -/
def createConversation (db : List Conversation) (c : Conversation) :
    Except DbError (List Conversation) :=
  if db.any (fun d => d.participantKey == c.participantKey) then .error .duplicateKey
  else .ok (db ++ [c])

/-- The document `getOrCreateConversation` passes to `Conversation.create`
on first contact. -/
def freshConversation (A B f : String) (n : Nat) : Conversation :=
  { id := f, participants := [A, B], participantKey := buildParticipantKey A B,
    hiddenFor := [], lastMessageText := "", lastMessageAt := n }

/-- `getOrCreateConversation` with the concurrent-create race made explicit:
`dbAtFind` is the collection state when the `findOne` runs and `dbAtCreate`
the state when the subsequent write runs (a concurrent caller may have
inserted in between).  The source wraps the `create` in no try/catch, so a
duplicate-key rejection propagates out of the function. -/
def getOrCreateConversationRaced (userA userB freshId : String) (now : Nat)
    (dbAtFind dbAtCreate : List Conversation) :
    Except DbError (Conversation × List Conversation) :=
  let participantKey := buildParticipantKey userA userB
  match findOneByKey dbAtFind participantKey with
  | none =>
      let c := freshConversation userA userB freshId now
      (createConversation dbAtCreate c).map (fun db' => (c, db'))
  | some c =>
      if c.hiddenFor.contains userA then
        let c' := { c with hiddenFor := c.hiddenFor.filter (fun u => u ≠ userA) }
        .ok (c', dbAtCreate.map (fun d => if d.id == c.id then c' else d))
      else
        .ok (c, dbAtCreate)

/-- C3 counterexample: in a first-contact race (no conversation for the pair
at `findOne` time, but a concurrent caller has inserted one by `create`
time), `getOrCreateConversation` surfaces the duplicate-key failure to the
caller instead of retrying it as a lookup — the source has no try/catch
around the create. -/
theorem getOrCreate_race_error_surfaces :
    getOrCreateConversationRaced "a" "b" "f" 0 [] [freshConversation "a" "b" "c0" 0]
      = .error .duplicateKey := by
  rfl

/-- C3 amended: a duplicate-key failure on the create step is not retried —
it propagates to the caller as an error; absent a race the create succeeds,
and the unique index still guarantees that the winning create leaves exactly
one conversation with the pair key. -/
theorem getOrCreateRaced_error_or_unique (A B f : String) (n : Nat)
    (dbF dbC : List Conversation)
    (hfind : findOneByKey dbF (buildParticipantKey A B) = none) :
    (dbC.any (fun d => d.participantKey == buildParticipantKey A B) = true →
      getOrCreateConversationRaced A B f n dbF dbC = .error .duplicateKey) ∧
    (dbC.any (fun d => d.participantKey == buildParticipantKey A B) = false →
      ∃ db', getOrCreateConversationRaced A B f n dbF dbC
          = .ok (freshConversation A B f n, db') ∧
        db'.countP (fun d => d.participantKey == buildParticipantKey A B) = 1) := by
  constructor
  · intro hdup
    simp only [getOrCreateConversationRaced]
    rw [hfind]
    simp only [createConversation, freshConversation]
    rw [if_pos hdup]
    rfl
  · intro hnodup
    refine ⟨dbC ++ [freshConversation A B f n], ?_, ?_⟩
    · simp only [getOrCreateConversationRaced]
      rw [hfind]
      simp only [createConversation, freshConversation]
      have hcond : ¬ ((dbC.any fun d => d.participantKey == buildParticipantKey A B) = true) := by
        rw [hnodup]; simp
      rw [if_neg hcond]
      rfl
    · rw [List.countP_append]
      have h0 : dbC.countP (fun d => d.participantKey == buildParticipantKey A B) = 0 := by
        rw [List.countP_eq_zero]
        intro d hd
        exact List.any_eq_false.mp hnodup d hd
      rw [h0]
      simp [freshConversation]

/-- C3 witness for the amended theorem at a concrete race. -/
theorem getOrCreateRaced_error_or_unique_witness :
    ([freshConversation "a" "b" "c0" 0].any
        (fun d => d.participantKey == buildParticipantKey "a" "b") = true →
      getOrCreateConversationRaced "a" "b" "f" 0 [] [freshConversation "a" "b" "c0" 0]
        = .error .duplicateKey) ∧
    ([freshConversation "a" "b" "c0" 0].any
        (fun d => d.participantKey == buildParticipantKey "a" "b") = false →
      ∃ db', getOrCreateConversationRaced "a" "b" "f" 0 [] [freshConversation "a" "b" "c0" 0]
          = .ok (freshConversation "a" "b" "f" 0, db') ∧
        db'.countP (fun d => d.participantKey == buildParticipantKey "a" "b") = 1) :=
  getOrCreateRaced_error_or_unique "a" "b" "f" 0 [] _ (by rfl)

/-! ## Event router (src/server.js: POST /internal/realtime and emitPresenceUpdate) -/

/-- Socket.io room membership: room name to the sessions joined to it.  One
field per room-name family of server.js (`conversation:`, `user:`,
`presence:watch:`). -/
structure Rooms where
  conversationRoom : String → List String
  userRoom : String → List String
  presenceWatchRoom : String → List String

/-- The payload fields of an event arriving at POST /internal/realtime that
the router reads. -/
inductive InternalEvent
  | messageNew (conversationId recipientId senderId : String)
  | messageRead (conversationId : String)
  | messageDeleted (mode targetUserId conversationId recipientId senderId : String)
  deriving Repr, DecidableEq

/-- Embeds the POST /internal/realtime fan-out (src/server.js lines
260-283): each `io.to(room).emit(...)` delivers one copy of the event to
every session in that room, and the handler performs consecutive
independent emits to different rooms, so the deliveries concatenate. -/
def routeInternalEvent (rooms : Rooms) (e : InternalEvent) : List String :=
  match e with
  | .messageNew c r s => rooms.conversationRoom c ++ rooms.userRoom r ++ rooms.userRoom s
  | .messageRead c => rooms.conversationRoom c
  | .messageDeleted mode target c r s =>
      if mode == "me" then rooms.userRoom target
      else rooms.conversationRoom c ++ rooms.userRoom r ++ rooms.userRoom s

/-- Embeds `emitPresenceUpdate` (src/server.js lines 149-158): one emit to
the presence-watch room of the target, then one to the target inbox room. -/
def routePresenceUpdate (rooms : Rooms) (targetUserId : String) : List String :=
  rooms.presenceWatchRoom targetUserId ++ rooms.userRoom targetUserId

/-- A room state in which session s0 has joined conversation conv1 and is
also a connected session of the sender alice, while s1 is a session of the
recipient bob. -/
def overlapRooms : Rooms :=
  { conversationRoom := fun c => if c == "conv1" then ["s0"] else []
    userRoom := fun u => if u == "alice" then ["s0"] else if u == "bob" then ["s1"] else []
    presenceWatchRoom := fun _ => [] }

/-- C1 counterexample: a sender session that has joined the conversation
room is in two matching groups for a message:new event, and the router
delivers the event to it twice — not at most once as claimed. -/
theorem router_delivers_twice_to_overlapping_session :
    (routeInternalEvent overlapRooms (.messageNew "conv1" "bob" "alice")).count "s0" = 2 ∧
    ¬ ((routeInternalEvent overlapRooms (.messageNew "conv1" "bob" "alice")).count "s0" ≤ 1) := by
  constructor
  · rfl
  · decide

theorem count_eq_indicator {l : List String} (h : l.Nodup) (a : String) :
    l.count a = if a ∈ l then 1 else 0 := by
  by_cases hm : a ∈ l
  · rw [if_pos hm]
    exact List.count_eq_one_of_mem h hm
  · rw [if_neg hm]
    exact List.count_eq_zero_of_not_mem hm

/-- C1 amended: for every routed domain event, the router delivers the
event to a connected session exactly once per matching group membership:
at most once per matching group (rooms are sets, hence duplicate-free), but
a session belonging to several matching groups receives one copy per
group. -/
theorem router_delivery_once_per_group (rooms : Rooms)
    (sid convId recipientId senderId targetUserId mode : String)
    (h1 : (rooms.conversationRoom convId).Nodup)
    (h2 : (rooms.userRoom recipientId).Nodup)
    (h3 : (rooms.userRoom senderId).Nodup)
    (h4 : (rooms.userRoom targetUserId).Nodup)
    (h5 : (rooms.presenceWatchRoom targetUserId).Nodup) :
    (routeInternalEvent rooms (.messageNew convId recipientId senderId)).count sid
      = (if sid ∈ rooms.conversationRoom convId then 1 else 0)
        + (if sid ∈ rooms.userRoom recipientId then 1 else 0)
        + (if sid ∈ rooms.userRoom senderId then 1 else 0) ∧
    (routeInternalEvent rooms (.messageRead convId)).count sid
      = (if sid ∈ rooms.conversationRoom convId then 1 else 0) ∧
    (routeInternalEvent rooms
        (.messageDeleted "me" targetUserId convId recipientId senderId)).count sid
      = (if sid ∈ rooms.userRoom targetUserId then 1 else 0) ∧
    (mode ≠ "me" →
      (routeInternalEvent rooms
          (.messageDeleted mode targetUserId convId recipientId senderId)).count sid
        = (if sid ∈ rooms.conversationRoom convId then 1 else 0)
          + (if sid ∈ rooms.userRoom recipientId then 1 else 0)
          + (if sid ∈ rooms.userRoom senderId then 1 else 0)) ∧
    (routePresenceUpdate rooms targetUserId).count sid
      = (if sid ∈ rooms.presenceWatchRoom targetUserId then 1 else 0)
        + (if sid ∈ rooms.userRoom targetUserId then 1 else 0) := by
  refine ⟨?_, ?_, ?_, ?_, ?_⟩
  · simp only [routeInternalEvent, List.count_append]
    rw [count_eq_indicator h1, count_eq_indicator h2, count_eq_indicator h3]
  · simp only [routeInternalEvent]
    rw [count_eq_indicator h1]
  · simp only [routeInternalEvent]
    rw [if_pos (by rfl)]
    rw [count_eq_indicator h4]
  · intro hmode
    have hbeq : (mode == "me") = false := beq_eq_false_iff_ne.mpr hmode
    simp only [routeInternalEvent]
    rw [hbeq]
    simp only [Bool.false_eq_true, if_false, List.count_append]
    rw [count_eq_indicator h1, count_eq_indicator h2, count_eq_indicator h3]
  · simp only [routePresenceUpdate, List.count_append]
    rw [count_eq_indicator h5, count_eq_indicator h4]

/-- C1 witness: the amended delivery count, evaluated in the concrete
overlapping room state. -/
theorem router_delivery_once_per_group_witness :
    ((routeInternalEvent overlapRooms (.messageNew "conv1" "bob" "alice")).count "s1"
      = (if "s1" ∈ overlapRooms.conversationRoom "conv1" then 1 else 0)
        + (if "s1" ∈ overlapRooms.userRoom "bob" then 1 else 0)
        + (if "s1" ∈ overlapRooms.userRoom "alice" then 1 else 0)) ∧
    ("everyone" ≠ "me" →
      (routeInternalEvent overlapRooms
          (.messageDeleted "everyone" "alice" "conv1" "bob" "alice")).count "s1"
        = (if "s1" ∈ overlapRooms.conversationRoom "conv1" then 1 else 0)
          + (if "s1" ∈ overlapRooms.userRoom "bob" then 1 else 0)
          + (if "s1" ∈ overlapRooms.userRoom "alice" then 1 else 0)) := by
  have h := router_delivery_once_per_group overlapRooms "s1" "conv1" "bob" "alice" "alice"
    "everyone" (by decide) (by decide) (by decide) (by decide) (by decide)
  exact ⟨h.1, h.2.2.2.1⟩

/-! ## Presence authorization (src/server.js canWatchPresence) -/

/-- Embeds `canWatchPresence` (src/server.js lines 126-147).  The falsy
guard rejects empty ids first; the self check runs before ObjectId
validation; the conversation check is `$all: [watcher, target]`, i.e. the
participants array contains both ids. -/
def canWatchPresence (watcherUserId targetUserId : String)
    (convs : List Conversation) : Bool :=
  if watcherUserId == "" || targetUserId == "" then false
  else if watcherUserId == targetUserId then true
  else if !(isValidObjectId watcherUserId) || !(isValidObjectId targetUserId) then false
  else convs.any (fun c => c.participants.contains watcherUserId
    && c.participants.contains targetUserId)

/-- C8 counterexample: the claim puts the self rule first (`true` whenever
watcher = target), but for the empty identifier — equal on both sides —
the falsy guard of the code returns false before the self check runs. -/
theorem canWatch_equal_but_false :
    ("" : String) = "" ∧ canWatchPresence "" "" [] = false := ⟨rfl, rfl⟩

/-- C8 amended: canWatchPresence rejects empty identifiers first; for
nonempty identifiers it returns true on self-watch (even for ids that are
not valid ObjectIds), false when either id fails ObjectId validation, and
otherwise reports whether some conversation lists both ids among its
participants — which, under the schema invariant that every conversation
has exactly two participants, is the same as a conversation whose
participant set is exactly the watcher and the target. -/
theorem canWatchPresence_spec (w t : String) (convs : List Conversation) :
    ((w = "" ∨ t = "") → canWatchPresence w t convs = false) ∧
    (w ≠ "" → w = t → canWatchPresence w t convs = true) ∧
    (w ≠ "" → t ≠ "" → w ≠ t →
      (isValidObjectId w = false ∨ isValidObjectId t = false) →
      canWatchPresence w t convs = false) ∧
    (w ≠ "" → t ≠ "" → w ≠ t → isValidObjectId w = true → isValidObjectId t = true →
      (canWatchPresence w t convs = true ↔
        ∃ c ∈ convs, w ∈ c.participants ∧ t ∈ c.participants)) ∧
    (w ≠ t → ∀ c ∈ convs, c.participants.length = 2 →
      ((w ∈ c.participants ∧ t ∈ c.participants) ↔
        ∀ x, (x ∈ c.participants ↔ x = w ∨ x = t))) := by
  refine ⟨?_, ?_, ?_, ?_, ?_⟩
  · rintro (rfl | rfl) <;> simp [canWatchPresence]
  · intro hw heq
    subst heq
    have hb : (w == "") = false := beq_eq_false_iff_ne.mpr hw
    simp [canWatchPresence, hb]
  · intro hw ht hwt hval
    have hbw : (w == "") = false := beq_eq_false_iff_ne.mpr hw
    have hbt : (t == "") = false := beq_eq_false_iff_ne.mpr ht
    have hbne : (w == t) = false := beq_eq_false_iff_ne.mpr hwt
    rcases hval with h | h <;> simp [canWatchPresence, hbw, hbt, hbne, h]
  · intro hw ht hwt hvw hvt
    have hbw : (w == "") = false := beq_eq_false_iff_ne.mpr hw
    have hbt : (t == "") = false := beq_eq_false_iff_ne.mpr ht
    have hbne : (w == t) = false := beq_eq_false_iff_ne.mpr hwt
    simp [canWatchPresence, hbw, hbt, hbne, hvw, hvt, List.any_eq_true, List.elem_iff]
  · intro hwt c _ hlen
    obtain ⟨p, q, hpq⟩ := List.length_eq_two.mp hlen
    rw [hpq]
    constructor
    · rintro ⟨hwm, htm⟩ x
      have hw2 : w = p ∨ w = q := by simpa using hwm
      have ht2 : t = p ∨ t = q := by simpa using htm
      rcases hw2 with rfl | rfl <;> rcases ht2 with rfl | rfl <;>
        simp_all <;> constructor <;> tauto
    · intro hx
      exact ⟨(hx w).mpr (Or.inl rfl), (hx t).mpr (Or.inr rfl)⟩

/-- C8 witness: the amended clauses evaluated for a concrete watcher,
target and conversation store. -/
theorem canWatchPresence_spec_witness :
    ("aaaaaaaaaaaaaaaaaaaaaaaa" ≠ "" → "bbbbbbbbbbbbbbbbbbbbbbbb" ≠ "" →
      "aaaaaaaaaaaaaaaaaaaaaaaa" ≠ "bbbbbbbbbbbbbbbbbbbbbbbb" →
      isValidObjectId "aaaaaaaaaaaaaaaaaaaaaaaa" = true →
      isValidObjectId "bbbbbbbbbbbbbbbbbbbbbbbb" = true →
      (canWatchPresence "aaaaaaaaaaaaaaaaaaaaaaaa" "bbbbbbbbbbbbbbbbbbbbbbbb"
          [freshConversation "aaaaaaaaaaaaaaaaaaaaaaaa" "bbbbbbbbbbbbbbbbbbbbbbbb" "c0" 0]
          = true ↔
        ∃ c ∈ [freshConversation "aaaaaaaaaaaaaaaaaaaaaaaa" "bbbbbbbbbbbbbbbbbbbbbbbb" "c0" 0],
          "aaaaaaaaaaaaaaaaaaaaaaaa" ∈ c.participants ∧
          "bbbbbbbbbbbbbbbbbbbbbbbb" ∈ c.participants)) ∧
    canWatchPresence "aaaaaaaaaaaaaaaaaaaaaaaa" "bbbbbbbbbbbbbbbbbbbbbbbb"
      [freshConversation "aaaaaaaaaaaaaaaaaaaaaaaa" "bbbbbbbbbbbbbbbbbbbbbbbb" "c0" 0] = true := by
  have h := canWatchPresence_spec "aaaaaaaaaaaaaaaaaaaaaaaa" "bbbbbbbbbbbbbbbbbbbbbbbb"
    [freshConversation "aaaaaaaaaaaaaaaaaaaaaaaa" "bbbbbbbbbbbbbbbbbbbbbbbb" "c0" 0]
  refine ⟨h.2.2.2.1, ?_⟩
  rfl

/-! ## Session registry (src/server.js connection and disconnect handlers) -/

/-- Payload of `emitPresenceUpdate` seen as a domain event. -/
structure PresenceEvent where
  userId : String
  isOnline : Bool
  lastSeen : Nat
  deriving Repr, DecidableEq

/-- The in-memory maps `onlineCounts` and `socketToUser`
(src/server.js lines 19-20).  Counts are integers: the disconnect path
computes `Math.max(count - 1, 0)`. -/
structure RegistryState where
  onlineCounts : List (String × Int)
  socketToUser : List (String × String)
  deriving Repr, DecidableEq

def mapGet {β : Type} (m : List (String × β)) (k : String) : Option β :=
  (m.find? (fun e => e.1 == k)).map (fun e => e.2)

def mapSet {β : Type} (m : List (String × β)) (k : String) (v : β) :
    List (String × β) :=
  if m.any (fun e => e.1 == k) then m.map (fun e => if e.1 == k then (k, v) else e)
  else m ++ [(k, v)]

def mapDelete {β : Type} (m : List (String × β)) (k : String) : List (String × β) :=
  m.filter (fun e => e.1 != k)

/-- `User.findByIdAndUpdate(uid, { isOnline, lastSeen })`. -/
def findByIdAndUpdate (users : List UserRecord) (uid : String) (online : Bool)
    (seen : Nat) : List UserRecord :=
  users.map (fun r => if r.id == uid then { r with isOnline := online, lastSeen := seen } else r)

/-- `onlineCounts.get(u) || 1`: a missing entry and a stored 0 are both
falsy in JS and yield 1. -/
def jsGetOr1 (v : Option Int) : Int :=
  match v with
  | none => 1
  | some c => if c == 0 then 1 else c

/-- Embeds the connection handler (src/server.js lines 160-177): bind the
socket, bump the counter, persist isOnline=true and lastSeen=now on every
connect, and emit a presence-online update only when the counter reaches 1. -/
def handleConnection (socketId userId : String) (now : Nat)
    (st : RegistryState) (users : List UserRecord) :
    RegistryState × List UserRecord × List PresenceEvent :=
  if userId == "" then (st, users, [])
  else
    let count : Int := ((mapGet st.onlineCounts userId).getD 0) + 1
    let st' : RegistryState :=
      { onlineCounts := mapSet st.onlineCounts userId count
        socketToUser := mapSet st.socketToUser socketId userId }
    let users' := findByIdAndUpdate users userId true now
    if count == 1 then (st', users', [⟨userId, true, now⟩])
    else (st', users', [])

/-- Embeds the disconnect handler (src/server.js lines 231-249): drop the
socket binding; if the clamped decremented counter reaches 0, delete the
counter, persist offline with lastSeen=now and emit one presence-offline
update, otherwise store the decremented counter and emit nothing. -/
def handleDisconnect (socketId : String) (now : Nat)
    (st : RegistryState) (users : List UserRecord) :
    RegistryState × List UserRecord × List PresenceEvent :=
  let uid? := mapGet st.socketToUser socketId
  let st1 : RegistryState :=
    { st with socketToUser := mapDelete st.socketToUser socketId }
  match uid? with
  | none => (st1, users, [])
  | some uid =>
    if uid == "" then (st1, users, [])
    else
      let updatedCount : Int := max (jsGetOr1 (mapGet st.onlineCounts uid) - 1) 0
      if updatedCount == 0 then
        ({ st1 with onlineCounts := mapDelete st1.onlineCounts uid },
         findByIdAndUpdate users uid false now, [⟨uid, false, now⟩])
      else
        ({ st1 with onlineCounts := mapSet st1.onlineCounts uid updatedCount },
         users, [])

inductive RegistryOp
  | connect (socketId userId : String) (now : Nat)
  | disconnect (socketId : String) (now : Nat)
  deriving Repr, DecidableEq

def runRegistry : List RegistryOp → RegistryState → List UserRecord →
    RegistryState × List UserRecord
  | [], st, users => (st, users)
  | .connect s u n :: rest, st, users =>
    let r := handleConnection s u n st users
    runRegistry rest r.1 r.2.1
  | .disconnect s n :: rest, st, users =>
    let r := handleDisconnect s n st users
    runRegistry rest r.1 r.2.1

/-- No stored connection counter is negative. -/
def countsNonneg (st : RegistryState) : Prop := ∀ p ∈ st.onlineCounts, 0 ≤ p.2

theorem mapGet_nonneg {m : List (String × Int)} (h : ∀ p ∈ m, 0 ≤ p.2) (k : String) :
    0 ≤ (mapGet m k).getD 0 := by
  unfold mapGet
  cases hf : m.find? (fun e => e.1 == k) with
  | none => simp
  | some e =>
    have he : e ∈ m := List.mem_of_find?_eq_some hf
    simpa using h e he

theorem mapSet_nonneg {m : List (String × Int)} (h : ∀ p ∈ m, 0 ≤ p.2) {k : String}
    {v : Int} (hv : 0 ≤ v) : ∀ p ∈ mapSet m k v, 0 ≤ p.2 := by
  intro p hp
  unfold mapSet at hp
  by_cases hc : m.any (fun e => e.1 == k) = true
  · rw [if_pos hc] at hp
    obtain ⟨q, hq, hqp⟩ := List.mem_map.mp hp
    by_cases hqk : (q.1 == k) = true
    · rw [if_pos hqk] at hqp
      rw [← hqp]
      exact hv
    · rw [if_neg hqk] at hqp
      rw [← hqp]
      exact h q hq
  · rw [if_neg hc] at hp
    rcases List.mem_append.mp hp with h1 | h1
    · exact h p h1
    · have : p = (k, v) := by simpa using h1
      rw [this]
      exact hv

theorem mapDelete_nonneg {m : List (String × Int)} (h : ∀ p ∈ m, 0 ≤ p.2) (k : String) :
    ∀ p ∈ mapDelete m k, 0 ≤ p.2 := by
  intro p hp
  exact h p (List.mem_of_mem_filter hp)

theorem countsNonneg_connect (s u : String) (n : Nat) (st : RegistryState)
    (users : List UserRecord) (h : countsNonneg st) :
    countsNonneg (handleConnection s u n st users).1 := by
  intro p hp
  simp only [handleConnection] at hp
  by_cases hu : (u == "") = true
  · rw [if_pos hu] at hp
    exact h p hp
  · rw [if_neg hu] at hp
    have hv : (0 : Int) ≤ (mapGet st.onlineCounts u).getD 0 + 1 := by
      have := mapGet_nonneg (m := st.onlineCounts) h u
      omega
    by_cases hc : (((mapGet st.onlineCounts u).getD 0 + 1) == 1) = true
    · rw [if_pos hc] at hp
      exact mapSet_nonneg h hv p hp
    · rw [if_neg hc] at hp
      exact mapSet_nonneg h hv p hp

theorem countsNonneg_disconnect (s : String) (n : Nat) (st : RegistryState)
    (users : List UserRecord) (h : countsNonneg st) :
    countsNonneg (handleDisconnect s n st users).1 := by
  intro p hp
  simp only [handleDisconnect] at hp
  cases hg : mapGet st.socketToUser s with
  | none =>
    rw [hg] at hp
    exact h p hp
  | some uid =>
    rw [hg] at hp
    dsimp only at hp
    by_cases hu : (uid == "") = true
    · rw [if_pos hu] at hp
      exact h p hp
    · rw [if_neg hu] at hp
      by_cases hc : ((max (jsGetOr1 (mapGet st.onlineCounts uid) - 1) 0) == 0) = true
      · rw [if_pos hc] at hp
        exact mapDelete_nonneg h uid p hp
      · rw [if_neg hc] at hp
        exact mapSet_nonneg h (le_max_right _ _) p hp

theorem countsNonneg_run : ∀ (ops : List RegistryOp) (st : RegistryState)
    (users : List UserRecord), countsNonneg st → countsNonneg (runRegistry ops st users).1
  | [], _, _, h => h
  | .connect s u n :: rest, st, users, h =>
    countsNonneg_run rest _ _ (countsNonneg_connect s u n st users h)
  | .disconnect s n :: rest, st, users, h =>
    countsNonneg_run rest _ _ (countsNonneg_disconnect s n st users h)

theorem findByIdAndUpdate_at_id (users : List UserRecord) (uid : String)
    (online : Bool) (seen : Nat) :
    ∀ r ∈ findByIdAndUpdate users uid online seen, r.id = uid →
      r.isOnline = online ∧ r.lastSeen = seen := by
  intro r hr hid
  unfold findByIdAndUpdate at hr
  obtain ⟨q, hq, hqr⟩ := List.mem_map.mp hr
  by_cases hqk : (q.id == uid) = true
  · rw [if_pos hqk] at hqr
    rw [← hqr]
    exact ⟨rfl, rfl⟩
  · rw [if_neg hqk] at hqr
    subst hqr
    exact absurd (beq_iff_eq.mpr hid) hqk

/-- C7: with two registered sessions of one user, closing the first leaves
the persisted online flag true and emits no presence event; closing the
second persists offline with lastSeen = now and emits exactly one offline
event; and stored connection counters never become negative under any
sequence of connection lifecycle operations. -/
theorem two_sessions_offline_once (u s1 s2 : String) (t1 t2 t3 t4 : Nat)
    (users0 : List UserRecord) (ops : List RegistryOp) (st : RegistryState)
    (hu : u ≠ "") (hs : s1 ≠ s2) (hst : countsNonneg st) :
    (let r1 := handleConnection s1 u t1 ⟨[], []⟩ users0
     let r2 := handleConnection s2 u t2 r1.1 r1.2.1
     let r3 := handleDisconnect s1 t3 r2.1 r2.2.1
     let r4 := handleDisconnect s2 t4 r3.1 r3.2.1
     r2.2.2 = [] ∧
     r3.2.2 = [] ∧
     (∀ r ∈ r3.2.1, r.id = u → r.isOnline = true) ∧
     r4.2.2 = [⟨u, false, t4⟩] ∧
     (∀ r ∈ r4.2.1, r.id = u → r.isOnline = false ∧ r.lastSeen = t4)) ∧
    countsNonneg (runRegistry ops st users0).1 := by
  have hbu : (u == "") = false := beq_eq_false_iff_ne.mpr hu
  have hb12 : (s1 == s2) = false := beq_eq_false_iff_ne.mpr hs
  have hb21 : (s2 == s1) = false := beq_eq_false_iff_ne.mpr (Ne.symm hs)
  have h1 : handleConnection s1 u t1 ⟨[], []⟩ users0
      = (⟨[(u, 1)], [(s1, u)]⟩, findByIdAndUpdate users0 u true t1, [⟨u, true, t1⟩]) := by
    simp [handleConnection, mapGet, mapSet, hbu]
  have h2 : ∀ us, handleConnection s2 u t2 ⟨[(u, 1)], [(s1, u)]⟩ us
      = (⟨[(u, 2)], [(s1, u), (s2, u)]⟩, findByIdAndUpdate us u true t2, []) := by
    intro us
    simp [handleConnection, mapGet, mapSet, hbu, hb12]
  have h3 : ∀ us, handleDisconnect s1 t3 ⟨[(u, 2)], [(s1, u), (s2, u)]⟩ us
      = (⟨[(u, 1)], [(s2, u)]⟩, us, []) := by
    intro us
    simp [handleDisconnect, mapGet, mapSet, mapDelete, jsGetOr1, hbu, hb21, Ne.symm hs]
  have h4 : ∀ us, handleDisconnect s2 t4 ⟨[(u, 1)], [(s2, u)]⟩ us
      = (⟨[], []⟩, findByIdAndUpdate us u false t4, [⟨u, false, t4⟩]) := by
    intro us
    simp [handleDisconnect, mapGet, mapSet, mapDelete, jsGetOr1, hbu]
  refine ⟨?_, countsNonneg_run ops st users0 hst⟩
  dsimp only
  rw [h1]
  dsimp only
  rw [h2]
  dsimp only
  rw [h3]
  dsimp only
  rw [h4]
  refine ⟨rfl, rfl, ?_, rfl, ?_⟩
  · intro r hr hid
    exact (findByIdAndUpdate_at_id _ u true t2 r hr hid).1
  · intro r hr hid
    exact findByIdAndUpdate_at_id _ u false t4 r hr hid

/-- C7 witness at concrete sessions, times and user store. -/
theorem two_sessions_offline_once_witness :
    (let r1 := handleConnection "sock1" "u1" 1 ⟨[], []⟩ [⟨"u1", false, 0⟩]
     let r2 := handleConnection "sock2" "u1" 2 r1.1 r1.2.1
     let r3 := handleDisconnect "sock1" 3 r2.1 r2.2.1
     let r4 := handleDisconnect "sock2" 4 r3.1 r3.2.1
     r2.2.2 = [] ∧
     r3.2.2 = [] ∧
     (∀ r ∈ r3.2.1, r.id = "u1" → r.isOnline = true) ∧
     r4.2.2 = [⟨"u1", false, 4⟩] ∧
     (∀ r ∈ r4.2.1, r.id = "u1" → r.isOnline = false ∧ r.lastSeen = 4)) ∧
    countsNonneg (runRegistry [.connect "sock1" "u1" 1, .disconnect "sock1" 2]
      ⟨[], []⟩ [⟨"u1", false, 0⟩]).1 :=
  two_sessions_offline_once "u1" "sock1" "sock2" 1 2 3 4 [⟨"u1", false, 0⟩]
    [.connect "sock1" "u1" 1, .disconnect "sock1" 2] ⟨[], []⟩
    (by decide) (by decide) (fun p hp => absurd hp (List.not_mem_nil p))

/-! ## Message lifecycle handlers (src/app/api/messages/route.ts, read route) -/

/-- Realtime events emitted through `emitRealtimeEvent` by the request
handlers, with the payload fields they carry. -/
inductive RealtimeEvent
  | messageNew (conversationId messageId senderId recipientId text : String) (createdAt : Nat)
  | messageRead (conversationId readerId : String) (messageIds : List String)
  | messageDeletedMe (conversationId messageId targetUserId : String)
  | messageDeletedEveryone (conversationId messageId : String) (deletedAt : Nat)
      (senderId recipientId : String)
  deriving Repr, DecidableEq

/-- Mongo `$addToSet` on a string array. -/
def addToSet (l : List String) (u : String) : List String :=
  if l.contains u then l else l ++ [u]

theorem contains_addToSet (l : List String) (u : String) :
    (addToSet l u).contains u = true := by
  unfold addToSet
  by_cases h : l.contains u = true
  · rw [if_pos h]
    exact h
  · rw [if_neg h]
    simp [List.elem_iff]

theorem mem_addToSet_self (l : List String) (u : String) : u ∈ addToSet l u :=
  List.elem_iff.mp (contains_addToSet l u)

inductive MarkReadResult
  | badRequest (msg : String)
  | updated (n : Nat)
  deriving Repr, DecidableEq

/-- The unread query of POST /api/messages/read: in the conversation,
addressed to the caller, not yet read by the caller, not hidden for the
caller. -/
def unreadFilter (authUserId conversationId : String) (m : Message) : Bool :=
  m.conversationId == conversationId && m.recipientId == authUserId &&
    !(m.readBy.contains authUserId) && !(m.hiddenFor.contains authUserId)

/-- `Message.updateMany({_id: {$in: messageIds}}, {$addToSet: {readBy}})`. -/
def applyReadUpdate (u : String) (messageIds : List String) (msgs : List Message) :
    List Message :=
  msgs.map (fun m =>
    if messageIds.contains m.id then { m with readBy := addToSet m.readBy u } else m)

/-- Embeds POST /api/messages/read (src/unnamed/part_003): validate the
conversation id, select unread messages, short-circuit with updated=0 and
no emission when none, otherwise add the caller to each readBy set and
emit one message:read event with the affected id list. -/
def markRead (authUserId conversationIdRaw : String) (msgs : List Message) :
    MarkReadResult × List RealtimeEvent × List Message :=
  let conversationId := jsTrim conversationIdRaw
  if conversationId == "" || !(isValidObjectId conversationId) then
    (.badRequest "Valid conversationId is required.", [], msgs)
  else
    let unreadMessages := msgs.filter (unreadFilter authUserId conversationId)
    if unreadMessages.length == 0 then
      (.updated 0, [], msgs)
    else
      let messageIds := unreadMessages.map (fun m => m.id)
      (.updated messageIds.length,
       [.messageRead conversationId authUserId messageIds],
       applyReadUpdate authUserId messageIds msgs)

theorem unreadFilter_false_after_update (u cid : String) (msgs : List Message) :
    ∀ m ∈ applyReadUpdate u ((msgs.filter (unreadFilter u cid)).map (fun m => m.id)) msgs,
      unreadFilter u cid m = false := by
  intro m' hm'
  unfold applyReadUpdate at hm'
  obtain ⟨m, hm, hmm⟩ := List.mem_map.mp hm'
  by_cases hin :
      (((msgs.filter (unreadFilter u cid)).map (fun m => m.id)).contains m.id) = true
  · rw [if_pos hin] at hmm
    rw [← hmm]
    unfold unreadFilter
    simp [mem_addToSet_self]
  · rw [if_neg hin] at hmm
    rw [← hmm]
    cases hf : unreadFilter u cid m with
    | false => rfl
    | true =>
      have hmem : m ∈ msgs.filter (unreadFilter u cid) := List.mem_filter.mpr ⟨hm, hf⟩
      have hid : m.id ∈ (msgs.filter (unreadFilter u cid)).map (fun m => m.id) :=
        List.mem_map.mpr ⟨m, hmem, rfl⟩
      exact absurd (List.elem_iff.mpr hid) hin

theorem markRead_result_no_unread (u craw : String) (msgs : List Message)
    (hvalid : isValidObjectId (jsTrim craw) = true) :
    ∀ m ∈ (markRead u craw msgs).2.2, unreadFilter u (jsTrim craw) m = false := by
  have hne : (jsTrim craw == "") = false := by
    cases hb : (jsTrim craw == "") with
    | false => rfl
    | true =>
      have heq : jsTrim craw = "" := eq_of_beq hb
      rw [heq] at hvalid
      exact absurd hvalid (by decide)
  have hcond : (jsTrim craw == "" || !(isValidObjectId (jsTrim craw))) = false := by
    rw [hne, hvalid]
    rfl
  intro m hm
  simp only [markRead] at hm
  rw [hcond] at hm
  simp only [Bool.false_eq_true, if_false] at hm
  by_cases hlen : ((msgs.filter (unreadFilter u (jsTrim craw))).length == 0) = true
  · rw [if_pos hlen] at hm
    have hempty : msgs.filter (unreadFilter u (jsTrim craw)) = [] :=
      List.length_eq_zero.mp (by simpa using hlen)
    cases hf : unreadFilter u (jsTrim craw) m with
    | false => rfl
    | true =>
      have hmem : m ∈ msgs.filter (unreadFilter u (jsTrim craw)) :=
        List.mem_filter.mpr ⟨hm, hf⟩
      rw [hempty] at hmem
      exact absurd hmem (List.not_mem_nil m)
  · rw [if_neg hlen] at hm
    exact unreadFilter_false_after_update u (jsTrim craw) msgs m hm

/-- C9: mark-read is idempotent.  After one call, every message of the
conversation addressed to the caller and not hidden for the caller carries
the caller in its readBy set, and an immediately repeated call returns
updated=0, emits no event, and changes nothing. -/
theorem markRead_idempotent (authUserId conversationIdRaw : String) (msgs : List Message)
    (hvalid : isValidObjectId (jsTrim conversationIdRaw) = true) :
    (∀ m ∈ (markRead authUserId conversationIdRaw msgs).2.2,
       m.conversationId = jsTrim conversationIdRaw → m.recipientId = authUserId →
       m.hiddenFor.contains authUserId = false → m.readBy.contains authUserId = true) ∧
    markRead authUserId conversationIdRaw ((markRead authUserId conversationIdRaw msgs).2.2)
      = (.updated 0, [], (markRead authUserId conversationIdRaw msgs).2.2) := by
  have hno := markRead_result_no_unread authUserId conversationIdRaw msgs hvalid
  have hne : (jsTrim conversationIdRaw == "") = false := by
    cases hb : (jsTrim conversationIdRaw == "") with
    | false => rfl
    | true =>
      have heq : jsTrim conversationIdRaw = "" := eq_of_beq hb
      rw [heq] at hvalid
      exact absurd hvalid (by decide)
  have hcond : (jsTrim conversationIdRaw == ""
      || !(isValidObjectId (jsTrim conversationIdRaw))) = false := by
    rw [hne, hvalid]
    rfl
  constructor
  · intro m hm h1 h2 h3
    have hf := hno m hm
    unfold unreadFilter at hf
    have hb1 : (m.conversationId == jsTrim conversationIdRaw) = true := beq_iff_eq.mpr h1
    have hb2 : (m.recipientId == authUserId) = true := beq_iff_eq.mpr h2
    have h3' : authUserId ∉ m.hiddenFor := by
      intro hmem
      have hc : m.hiddenFor.contains authUserId = true := List.elem_iff.mpr hmem
      rw [hc] at h3
      exact absurd h3 (by decide)
    simpa [hb1, hb2, h3'] using hf
  · set R := (markRead authUserId conversationIdRaw msgs).2.2 with hR
    have hempty : R.filter (unreadFilter authUserId (jsTrim conversationIdRaw)) = [] := by
      rw [List.filter_eq_nil_iff]
      intro m hm
      rw [hno m hm]
      simp
    simp only [markRead]
    rw [hcond]
    simp only [Bool.false_eq_true, if_false]
    rw [hempty]
    rfl

/-- C9 witness: a concrete conversation with one unread message. -/
theorem markRead_idempotent_witness :
    (∀ m ∈ (markRead "u1" "cccccccccccccccccccccccc"
        [⟨"m1", "cccccccccccccccccccccccc", "u2", "u1", "hi", ["u2"], [], false, none, 7⟩]).2.2,
       m.conversationId = jsTrim "cccccccccccccccccccccccc" → m.recipientId = "u1" →
       m.hiddenFor.contains "u1" = false → m.readBy.contains "u1" = true) ∧
    markRead "u1" "cccccccccccccccccccccccc"
        ((markRead "u1" "cccccccccccccccccccccccc"
          [⟨"m1", "cccccccccccccccccccccccc", "u2", "u1", "hi", ["u2"], [], false, none, 7⟩]).2.2)
      = (.updated 0, [],
         (markRead "u1" "cccccccccccccccccccccccc"
          [⟨"m1", "cccccccccccccccccccccccc", "u2", "u1", "hi", ["u2"], [], false, none, 7⟩]).2.2) :=
  markRead_idempotent "u1" "cccccccccccccccccccccccc"
    [⟨"m1", "cccccccccccccccccccccccc", "u2", "u1", "hi", ["u2"], [], false, none, 7⟩]
    (by decide)

/-- `sanitizeMessage` (src/lib/sanitize.ts): strip HTML via the external
sanitizer — modelled as an arbitrary pure function `san`, the spec treats
it as an opaque collaborator — then trim and cap at 2000 characters. -/
def sanitizeMessage (san : String → String) (input : String) : String :=
  jsSlice (jsTrim (san input)) 2000

theorem jsSlice_length_le (s : String) (n : Nat) : (jsSlice s n).length ≤ n := by
  show (s.data.take n).length ≤ n
  rw [List.length_take]
  exact Nat.min_le_left _ _

/-- The conversation returned by `getOrCreateConversation` is a member of
the collection it returns. -/
theorem getOrCreateConversation_mem (A B f : String) (n : Nat) (db : List Conversation) :
    (getOrCreateConversation A B f n db).1 ∈ (getOrCreateConversation A B f n db).2 := by
  simp only [getOrCreateConversation]
  cases hfind : findOneByKey db (buildParticipantKey A B) with
  | none =>
    dsimp only
    exact List.mem_append_right _ (List.mem_singleton.mpr rfl)
  | some c =>
    dsimp only
    unfold findOneByKey at hfind
    have hc : c ∈ db := List.mem_of_find?_eq_some hfind
    by_cases hh : c.hiddenFor.contains A = true
    · rw [if_pos hh]
      dsimp only
      exact List.mem_map.mpr ⟨c, hc, by simp⟩
    · rw [if_neg hh]
      exact hc

/-- Persistence reads/writes and the notification step of the send path,
in execution order. -/
inductive SendAction
  | findRecipient (userId : String)
  | resolveConversation (a b : String)
  | createMessage (m : Message)
  | saveConversation (c : Conversation)
  | emitNew (e : RealtimeEvent)
  deriving Repr, DecidableEq

/-- Which persistence write, if any, rejects with an infrastructure error
(a rejected await aborts the handler at that point). -/
inductive SendFailure
  | createMessageFail
  | saveConversationFail
  deriving Repr, DecidableEq

inductive SendResult
  | badRequest (msg : String)
  | notFound (msg : String)
  | ok (messageId : String)
  | infraError (step : SendFailure)
  deriving Repr, DecidableEq

def isEmit : SendAction → Bool
  | .emitNew _ => true
  | _ => false

/-- Embeds POST /api/messages (src/app/api/messages/route.ts lines
63-127): validate the recipient id, reject text that is empty after
sanitization, look up the recipient, resolve the conversation, create the
message with readBy=[sender], update the conversation preview, then emit
message:new last.  `failAt` injects an infrastructure failure at a
persistence write; control aborts there. -/
def postMessage (san : String → String) (authUserId toUserIdRaw rawText : String)
    (freshConvId freshMsgId : String) (now : Nat)
    (users : List UserRecord) (convs : List Conversation) (msgs : List Message)
    (failAt : Option SendFailure) :
    SendResult × List SendAction × List Conversation × List Message :=
  let toUserId := jsTrim toUserIdRaw
  let text := jsSlice (sanitizeMessage san rawText) 2000
  if toUserId == "" || !(isValidObjectId toUserId) then
    (.badRequest "Valid recipient is required.", [], convs, msgs)
  else if text == "" then
    (.badRequest "Message text is required.", [], convs, msgs)
  else
    match users.find? (fun r => r.id == toUserId) with
    | none => (.notFound "Recipient not found.", [.findRecipient toUserId], convs, msgs)
    | some _ =>
      let resolved := getOrCreateConversation authUserId toUserId freshConvId now convs
      let conversation := resolved.1
      let convs1 := resolved.2
      let trace1 := [SendAction.findRecipient toUserId,
                     SendAction.resolveConversation authUserId toUserId]
      if failAt == some .createMessageFail then
        (.infraError .createMessageFail, trace1, convs1, msgs)
      else
        let message : Message :=
          { id := freshMsgId, conversationId := conversation.id, senderId := authUserId,
            recipientId := toUserId, text := text, readBy := [authUserId], hiddenFor := [],
            isDeletedForEveryone := false, deletedAt := none, createdAt := now }
        let msgs1 := msgs ++ [message]
        let trace2 := trace1 ++ [SendAction.createMessage message]
        if failAt == some .saveConversationFail then
          (.infraError .saveConversationFail, trace2, convs1, msgs1)
        else
          let conversation1 :=
            { conversation with lastMessageText := text, lastMessageAt := now }
          let convs2 := convs1.map (fun c => if c.id == conversation1.id then conversation1 else c)
          let trace3 := trace2 ++ [SendAction.saveConversation conversation1]
          (.ok freshMsgId,
           trace3 ++ [SendAction.emitNew
             (.messageNew conversation.id freshMsgId authUserId toUserId text now)],
           convs2, msgs1)

/-- The message document the send path persists. -/
def sentMessage (san : String → String)
    (authUserId toUserIdRaw rawText freshConvId freshMsgId : String) (now : Nat)
    (convs : List Conversation) : Message :=
  { id := freshMsgId,
    conversationId :=
      (getOrCreateConversation authUserId (jsTrim toUserIdRaw) freshConvId now convs).1.id,
    senderId := authUserId, recipientId := jsTrim toUserIdRaw,
    text := jsSlice (sanitizeMessage san rawText) 2000,
    readBy := [authUserId], hiddenFor := [], isDeletedForEveryone := false,
    deletedAt := none, createdAt := now }

/-- The conversation document the send path saves (preview updated). -/
def savedConversation (san : String → String)
    (authUserId toUserIdRaw rawText freshConvId : String) (now : Nat)
    (convs : List Conversation) : Conversation :=
  { (getOrCreateConversation authUserId (jsTrim toUserIdRaw) freshConvId now convs).1 with
    lastMessageText := jsSlice (sanitizeMessage san rawText) 2000, lastMessageAt := now }

/-- C6: send-message behaviour.  A syntactically invalid (or empty)
recipient id is rejected before any step runs; text that is empty after
sanitization is rejected; a nonexistent recipient is rejected after only
the recipient lookup; message:new appears in the action trace only when
the handler succeeded and no persistence step failed; and on success the
trace is recipient-lookup, conversation-resolve, message-create,
conversation-save, then the emission last, the persisted message has
readBy=[sender] and text capped at 2000 characters, and the saved
conversation carries the new preview text and timestamp. -/
theorem postMessage_spec (san : String → String)
    (authUserId toUserIdRaw rawText freshConvId freshMsgId : String) (now : Nat)
    (users : List UserRecord) (convs : List Conversation) (msgs : List Message)
    (failAt : Option SendFailure) :
    (let res := postMessage san authUserId toUserIdRaw rawText freshConvId freshMsgId now
       users convs msgs failAt
     let toUserId := jsTrim toUserIdRaw
     let text := jsSlice (sanitizeMessage san rawText) 2000
     (isValidObjectId toUserId = false →
       res = (.badRequest "Valid recipient is required.", [], convs, msgs)) ∧
     (isValidObjectId toUserId = true → text = "" →
       res = (.badRequest "Message text is required.", [], convs, msgs)) ∧
     (isValidObjectId toUserId = true → text ≠ "" →
       users.find? (fun r => r.id == toUserId) = none →
       res = (.notFound "Recipient not found.", [.findRecipient toUserId], convs, msgs)) ∧
     ((∃ a ∈ res.2.1, isEmit a = true) → res.1 = .ok freshMsgId ∧ failAt = none) ∧
     (isValidObjectId toUserId = true → text ≠ "" →
       (∃ r, users.find? (fun x => x.id == toUserId) = some r) → failAt = none →
       (res = (.ok freshMsgId,
          [.findRecipient toUserId, .resolveConversation authUserId toUserId,
           .createMessage (sentMessage san authUserId toUserIdRaw rawText freshConvId
             freshMsgId now convs),
           .saveConversation (savedConversation san authUserId toUserIdRaw rawText
             freshConvId now convs),
           .emitNew (.messageNew (sentMessage san authUserId toUserIdRaw rawText freshConvId
             freshMsgId now convs).conversationId freshMsgId authUserId toUserId text now)],
          res.2.2.1,
          msgs ++ [sentMessage san authUserId toUserIdRaw rawText freshConvId
            freshMsgId now convs]) ∧
        (sentMessage san authUserId toUserIdRaw rawText freshConvId
          freshMsgId now convs).readBy = [authUserId] ∧
        (sentMessage san authUserId toUserIdRaw rawText freshConvId
          freshMsgId now convs).text = text ∧
        text.length ≤ 2000 ∧
        (savedConversation san authUserId toUserIdRaw rawText freshConvId now
          convs).lastMessageText = text ∧
        (savedConversation san authUserId toUserIdRaw rawText freshConvId now
          convs).lastMessageAt = now ∧
        savedConversation san authUserId toUserIdRaw rawText freshConvId now convs
          ∈ res.2.2.1))) := by
  dsimp only
  have hval_empty : isValidObjectId "" = false := by decide
  refine ⟨?_, ?_, ?_, ?_, ?_⟩
  · intro hval
    have hcond : (jsTrim toUserIdRaw == ""
        || !(isValidObjectId (jsTrim toUserIdRaw))) = true := by
      rw [hval]; simp
    simp only [postMessage]
    rw [hcond]
    simp
  · intro hval htext
    have hne : (jsTrim toUserIdRaw == "") = false := by
      cases hb : jsTrim toUserIdRaw == "" with
      | false => rfl
      | true =>
        rw [eq_of_beq hb] at hval
        rw [hval_empty] at hval
        exact absurd hval (by decide)
    have hcond : (jsTrim toUserIdRaw == ""
        || !(isValidObjectId (jsTrim toUserIdRaw))) = false := by
      rw [hne, hval]; rfl
    have htextb : (jsSlice (sanitizeMessage san rawText) 2000 == "") = true :=
      beq_iff_eq.mpr htext
    simp only [postMessage]
    rw [hcond, htextb]
    simp
  · intro hval htext hfind
    have hne : (jsTrim toUserIdRaw == "") = false := by
      cases hb : jsTrim toUserIdRaw == "" with
      | false => rfl
      | true =>
        rw [eq_of_beq hb] at hval
        rw [hval_empty] at hval
        exact absurd hval (by decide)
    have hcond : (jsTrim toUserIdRaw == ""
        || !(isValidObjectId (jsTrim toUserIdRaw))) = false := by
      rw [hne, hval]; rfl
    have htextb : (jsSlice (sanitizeMessage san rawText) 2000 == "") = false :=
      beq_eq_false_iff_ne.mpr htext
    simp only [postMessage]
    rw [hcond, htextb, hfind]
    simp
  · rintro ⟨a, ha, hae⟩
    by_cases hval : isValidObjectId (jsTrim toUserIdRaw) = true
    · have hne : (jsTrim toUserIdRaw == "") = false := by
        cases hb : jsTrim toUserIdRaw == "" with
        | false => rfl
        | true =>
          rw [eq_of_beq hb] at hval
          rw [hval_empty] at hval
          exact absurd hval (by decide)
      have hcond : (jsTrim toUserIdRaw == ""
          || !(isValidObjectId (jsTrim toUserIdRaw))) = false := by
        rw [hne, hval]; rfl
      by_cases htext : jsSlice (sanitizeMessage san rawText) 2000 = ""
      · have htextb : (jsSlice (sanitizeMessage san rawText) 2000 == "") = true :=
          beq_iff_eq.mpr htext
        simp only [postMessage] at ha
        rw [hcond, htextb] at ha
        simp at ha
      · have htextb : (jsSlice (sanitizeMessage san rawText) 2000 == "") = false :=
          beq_eq_false_iff_ne.mpr htext
        cases hfind : users.find? (fun r => r.id == jsTrim toUserIdRaw) with
        | none =>
          simp only [postMessage] at ha
          rw [hcond, htextb, hfind] at ha
          simp at ha
          rw [ha] at hae
          simp [isEmit] at hae
        | some r =>
          cases failAt with
          | some f =>
            cases f with
            | createMessageFail =>
              simp only [postMessage] at ha
              rw [hcond, htextb, hfind] at ha
              simp at ha
              rcases ha with ha | ha <;> (rw [ha] at hae; simp [isEmit] at hae)
            | saveConversationFail =>
              simp only [postMessage] at ha
              rw [hcond, htextb, hfind] at ha
              simp at ha
              rcases ha with ha | ha | ha <;> (rw [ha] at hae; simp [isEmit] at hae)
          | none =>
            constructor
            · simp only [postMessage]
              rw [hcond, htextb, hfind]
              simp
            · rfl
    · have hval' : isValidObjectId (jsTrim toUserIdRaw) = false := by
        cases h : isValidObjectId (jsTrim toUserIdRaw) with
        | false => rfl
        | true => exact absurd h hval
      have hcond : (jsTrim toUserIdRaw == ""
          || !(isValidObjectId (jsTrim toUserIdRaw))) = true := by
        rw [hval']; simp
      simp only [postMessage] at ha
      rw [hcond] at ha
      simp at ha
  · rintro hval htext ⟨r, hfind⟩ hfail
    subst hfail
    have hne : (jsTrim toUserIdRaw == "") = false := by
      cases hb : jsTrim toUserIdRaw == "" with
      | false => rfl
      | true =>
        rw [eq_of_beq hb] at hval
        rw [hval_empty] at hval
        exact absurd hval (by decide)
    have hcond : (jsTrim toUserIdRaw == ""
        || !(isValidObjectId (jsTrim toUserIdRaw))) = false := by
      rw [hne, hval]; rfl
    have htextb : (jsSlice (sanitizeMessage san rawText) 2000 == "") = false :=
      beq_eq_false_iff_ne.mpr htext
    refine ⟨?_, rfl, rfl, jsSlice_length_le _ _, rfl, rfl, ?_⟩
    · simp only [postMessage, sentMessage, savedConversation]
      rw [hcond, htextb, hfind]
      simp
    · simp only [postMessage, savedConversation]
      rw [hcond, htextb, hfind]
      simp only [Option.some.injEq]
      exact List.mem_map.mpr
        ⟨(getOrCreateConversation authUserId (jsTrim toUserIdRaw) freshConvId now convs).1,
         getOrCreateConversation_mem authUserId (jsTrim toUserIdRaw) freshConvId now convs,
         by simp⟩

/-- C6 witness: user u1 sends "hello" to an existing recipient with an
empty conversation store and no injected failure. -/
theorem postMessage_spec_witness :
    (postMessage (fun s => s) "u1" "bbbbbbbbbbbbbbbbbbbbbbbb" "hello" "c1" "m1" 5
        [⟨"bbbbbbbbbbbbbbbbbbbbbbbb", false, 0⟩] [] [] none
      = (.ok "m1",
         [.findRecipient (jsTrim "bbbbbbbbbbbbbbbbbbbbbbbb"),
          .resolveConversation "u1" (jsTrim "bbbbbbbbbbbbbbbbbbbbbbbb"),
          .createMessage (sentMessage (fun s => s) "u1" "bbbbbbbbbbbbbbbbbbbbbbbb"
            "hello" "c1" "m1" 5 []),
          .saveConversation (savedConversation (fun s => s) "u1" "bbbbbbbbbbbbbbbbbbbbbbbb"
            "hello" "c1" 5 []),
          .emitNew (.messageNew
            (sentMessage (fun s => s) "u1" "bbbbbbbbbbbbbbbbbbbbbbbb"
              "hello" "c1" "m1" 5 []).conversationId
            "m1" "u1" (jsTrim "bbbbbbbbbbbbbbbbbbbbbbbb")
            (jsSlice (sanitizeMessage (fun s => s) "hello") 2000) 5)],
         (postMessage (fun s => s) "u1" "bbbbbbbbbbbbbbbbbbbbbbbb" "hello" "c1" "m1" 5
           [⟨"bbbbbbbbbbbbbbbbbbbbbbbb", false, 0⟩] [] [] none).2.2.1,
         [] ++ [sentMessage (fun s => s) "u1" "bbbbbbbbbbbbbbbbbbbbbbbb"
           "hello" "c1" "m1" 5 []])) ∧
    (sentMessage (fun s => s) "u1" "bbbbbbbbbbbbbbbbbbbbbbbb"
      "hello" "c1" "m1" 5 []).readBy = ["u1"] ∧
    (sentMessage (fun s => s) "u1" "bbbbbbbbbbbbbbbbbbbbbbbb"
      "hello" "c1" "m1" 5 []).text = jsSlice (sanitizeMessage (fun s => s) "hello") 2000 ∧
    (jsSlice (sanitizeMessage (fun s => s) "hello") 2000).length ≤ 2000 ∧
    (savedConversation (fun s => s) "u1" "bbbbbbbbbbbbbbbbbbbbbbbb"
      "hello" "c1" 5 []).lastMessageText
      = jsSlice (sanitizeMessage (fun s => s) "hello") 2000 ∧
    (savedConversation (fun s => s) "u1" "bbbbbbbbbbbbbbbbbbbbbbbb"
      "hello" "c1" 5 []).lastMessageAt = 5 ∧
    savedConversation (fun s => s) "u1" "bbbbbbbbbbbbbbbbbbbbbbbb" "hello" "c1" 5 []
      ∈ (postMessage (fun s => s) "u1" "bbbbbbbbbbbbbbbbbbbbbbbb" "hello" "c1" "m1" 5
          [⟨"bbbbbbbbbbbbbbbbbbbbbbbb", false, 0⟩] [] [] none).2.2.1 :=
  (postMessage_spec (fun s => s) "u1" "bbbbbbbbbbbbbbbbbbbbbbbb" "hello" "c1" "m1" 5
      [⟨"bbbbbbbbbbbbbbbbbbbbbbbb", false, 0⟩] [] [] none).2.2.2.2
    (by decide) (by decide) ⟨⟨"bbbbbbbbbbbbbbbbbbbbbbbb", false, 0⟩, by rfl⟩ rfl

inductive DeleteResult
  | badRequest (msg : String)
  | notFound (msg : String)
  | forbidden (msg : String)
  | success (messageId mode : String)
  deriving Repr, DecidableEq

/-- `Message.findOne({conversationId}).sort({createdAt: -1}).lean()`: a
message of the conversation with maximal createdAt (first of equal
timestamps in collection order). -/
def latestByCreatedAt (msgs : List Message) : Option Message :=
  msgs.foldl (fun acc m =>
    match acc with
    | none => some m
    | some b => if m.createdAt > b.createdAt then some m else some b) none

/-- Embeds DELETE /api/messages (src/app/api/messages/route.ts lines
129-219): validate the message id and the mode, find the message, require
the requester to be a participant, restrict mode=everyone to the sender,
then either add the requester to hiddenFor (mode=me) or tombstone the
message (clear text, set flag and deletedAt), recompute the conversation
preview from the latest message, and emit message:deleted.  The everyone
path performs no check that the message is already tombstoned. -/
def deleteMessage (authUserId messageIdRaw : String) (modeRaw : Option String)
    (now : Nat) (msgs : List Message) (convs : List Conversation) :
    DeleteResult × List RealtimeEvent × List Message × List Conversation :=
  let messageId := jsTrim messageIdRaw
  let mode := jsToLower (jsTrim (modeRaw.getD "me"))
  if messageId == "" || !(isValidObjectId messageId) then
    (.badRequest "Valid messageId is required.", [], msgs, convs)
  else if mode != "me" && mode != "everyone" then
    (.badRequest "mode must be me or everyone.", [], msgs, convs)
  else
    match msgs.find? (fun m => m.id == messageId) with
    | none => (.notFound "Message not found.", [], msgs, convs)
    | some message =>
      if !(message.senderId == authUserId || message.recipientId == authUserId) then
        (.forbidden "Forbidden.", [], msgs, convs)
      else if mode == "everyone" && !(message.senderId == authUserId) then
        (.forbidden "Only sender can delete for everyone.", [], msgs, convs)
      else if mode == "me" then
        let msgs1 :=
          if message.hiddenFor.contains authUserId then msgs
          else msgs.map (fun m =>
            if m.id == message.id then { m with hiddenFor := m.hiddenFor ++ [authUserId] }
            else m)
        (.success message.id "me",
         [.messageDeletedMe message.conversationId message.id authUserId], msgs1, convs)
      else
        let message1 :=
          { message with isDeletedForEveryone := true, deletedAt := some now, text := "" }
        let msgs1 := msgs.map (fun m => if m.id == message.id then message1 else m)
        let latest :=
          latestByCreatedAt (msgs1.filter (fun m => m.conversationId == message.conversationId))
        let convs1 :=
          match convs.find? (fun c => c.id == message.conversationId) with
          | none => convs
          | some conversation =>
            let conversation1 :=
              match latest with
              | some lm =>
                { conversation with
                  lastMessageText :=
                    if lm.isDeletedForEveryone then "This message was deleted" else lm.text,
                  lastMessageAt := lm.createdAt }
              | none => { conversation with lastMessageText := "", lastMessageAt := now }
            convs.map (fun c => if c.id == conversation.id then conversation1 else c)
        (.success message.id "everyone",
         [.messageDeletedEveryone message.conversationId message.id now
           message.senderId message.recipientId],
         msgs1, convs1)

/-- C5 counterexample: a second delete-for-everyone by the sender on an
already tombstoned message is not rejected and is not a no-op: it succeeds
again, overwrites deletedAt (5 becomes 9), and emits a second
message:deleted event. -/
theorem delete_everyone_repeats_on_tombstone :
    (deleteMessage "u1" "aaaaaaaaaaaaaaaaaaaaaaaa" (some "everyone") 9
        [⟨"aaaaaaaaaaaaaaaaaaaaaaaa", "c1", "u1", "u2", "", ["u1"], [], true, some 5, 1⟩] [])
      = (.success "aaaaaaaaaaaaaaaaaaaaaaaa" "everyone",
         [.messageDeletedEveryone "c1" "aaaaaaaaaaaaaaaaaaaaaaaa" 9 "u1" "u2"],
         [⟨"aaaaaaaaaaaaaaaaaaaaaaaa", "c1", "u1", "u2", "", ["u1"], [], true, some 9, 1⟩],
         []) := by
  rfl

/-- C5 amended: delete-for-everyone is sender-only — any other participant
gets an authorization error and nothing changes — but it is not
once-only: a repeated delete-for-everyone on an already tombstoned message
succeeds again, refreshes deletedAt to the new call time, and emits
another message:deleted event. -/
theorem deleteMessage_everyone_sender_only_repeatable
    (authUserId messageIdRaw : String) (now : Nat)
    (msgs : List Message) (convs : List Conversation) (m : Message)
    (hvalid : isValidObjectId (jsTrim messageIdRaw) = true)
    (hfind : msgs.find? (fun x => x.id == jsTrim messageIdRaw) = some m) :
    (m.senderId ≠ authUserId → m.recipientId = authUserId →
      deleteMessage authUserId messageIdRaw (some "everyone") now msgs convs
        = (.forbidden "Only sender can delete for everyone.", [], msgs, convs)) ∧
    (m.senderId = authUserId →
      (deleteMessage authUserId messageIdRaw (some "everyone") now msgs convs).1
        = .success m.id "everyone" ∧
      (deleteMessage authUserId messageIdRaw (some "everyone") now msgs convs).2.1
        = [.messageDeletedEveryone m.conversationId m.id now m.senderId m.recipientId] ∧
      (∀ m' ∈ (deleteMessage authUserId messageIdRaw (some "everyone") now msgs convs).2.2.1,
        m'.id = m.id →
          m'.isDeletedForEveryone = true ∧ m'.deletedAt = some now ∧ m'.text = "")) := by
  have hne : (jsTrim messageIdRaw == "") = false := by
    cases hb : jsTrim messageIdRaw == "" with
    | false => rfl
    | true =>
      rw [eq_of_beq hb] at hvalid
      exact absurd hvalid (by decide)
  have hcond : (jsTrim messageIdRaw == ""
      || !(isValidObjectId (jsTrim messageIdRaw))) = false := by
    rw [hne, hvalid]; rfl
  have hmode : jsToLower (jsTrim "everyone") = "everyone" := rfl
  constructor
  · intro hsender hrecip
    have hbs : (m.senderId == authUserId) = false := beq_eq_false_iff_ne.mpr hsender
    have hbr : (m.recipientId == authUserId) = true := beq_iff_eq.mpr hrecip
    simp only [deleteMessage]
    rw [hcond, hfind]
    simp [hbs, hbr, hmode]
  · intro hsender
    have hbs : (m.senderId == authUserId) = true := beq_iff_eq.mpr hsender
    refine ⟨?_, ?_, ?_⟩
    · simp only [deleteMessage]
      rw [hcond, hfind]
      simp [hbs, hmode]
    · simp only [deleteMessage]
      rw [hcond, hfind]
      simp [hbs, hmode]
    · intro m' hm' hid
      simp only [deleteMessage] at hm'
      rw [hcond, hfind] at hm'
      simp only [hbs] at hm'
      simp [hmode] at hm'
      obtain ⟨x, hx, hxm⟩ := hm'
      by_cases hxid : x.id = m.id
      · rw [if_pos hxid] at hxm
        rw [← hxm]
        exact ⟨rfl, rfl, rfl⟩
      · rw [if_neg hxid] at hxm
        rw [← hxm] at hid
        exact absurd hid hxid

/-- C5 witness: the sender repeats delete-for-everyone on a tombstoned
message; the amended behaviour evaluated there. -/
theorem deleteMessage_everyone_witness :
    (("u1" : String) ≠ "u1" → ("u2" : String) = "u1" →
      deleteMessage "u1" "aaaaaaaaaaaaaaaaaaaaaaaa" (some "everyone") 9
          [⟨"aaaaaaaaaaaaaaaaaaaaaaaa", "c1", "u1", "u2", "", ["u1"], [], true, some 5, 1⟩] []
        = (.forbidden "Only sender can delete for everyone.", [],
           [⟨"aaaaaaaaaaaaaaaaaaaaaaaa", "c1", "u1", "u2", "", ["u1"], [], true, some 5, 1⟩],
           [])) ∧
    (("u1" : String) = "u1" →
      (deleteMessage "u1" "aaaaaaaaaaaaaaaaaaaaaaaa" (some "everyone") 9
          [⟨"aaaaaaaaaaaaaaaaaaaaaaaa", "c1", "u1", "u2", "", ["u1"], [], true, some 5, 1⟩] []).1
        = .success "aaaaaaaaaaaaaaaaaaaaaaaa" "everyone" ∧
      (deleteMessage "u1" "aaaaaaaaaaaaaaaaaaaaaaaa" (some "everyone") 9
          [⟨"aaaaaaaaaaaaaaaaaaaaaaaa", "c1", "u1", "u2", "", ["u1"], [], true, some 5, 1⟩] []).2.1
        = [.messageDeletedEveryone "c1" "aaaaaaaaaaaaaaaaaaaaaaaa" 9 "u1" "u2"] ∧
      (∀ m' ∈ (deleteMessage "u1" "aaaaaaaaaaaaaaaaaaaaaaaa" (some "everyone") 9
          [⟨"aaaaaaaaaaaaaaaaaaaaaaaa", "c1", "u1", "u2", "", ["u1"], [], true, some 5, 1⟩]
          []).2.2.1,
        m'.id = "aaaaaaaaaaaaaaaaaaaaaaaa" →
          m'.isDeletedForEveryone = true ∧ m'.deletedAt = some 9 ∧ m'.text = "")) :=
  deleteMessage_everyone_sender_only_repeatable "u1" "aaaaaaaaaaaaaaaaaaaaaaaa" 9
    [⟨"aaaaaaaaaaaaaaaaaaaaaaaa", "c1", "u1", "u2", "", ["u1"], [], true, some 5, 1⟩] []
    ⟨"aaaaaaaaaaaaaaaaaaaaaaaa", "c1", "u1", "u2", "", ["u1"], [], true, some 5, 1⟩
    (by decide) (by rfl)

/-! ## History fetch (GET /api/messages) -/

inductive GetMessagesResult
  | badRequest (msg : String)
  | ok (conversationId : String) (messageIds : List String)
  deriving Repr, DecidableEq

/-- Stable insertion into a list sorted descending by createdAt. -/
def insertDescByCreatedAt (m : Message) : List Message → List Message
  | [] => [m]
  | x :: xs =>
    if x.createdAt < m.createdAt then m :: x :: xs else x :: insertDescByCreatedAt m xs

/-- `.sort({createdAt: -1})`. -/
def sortDescByCreatedAt : List Message → List Message
  | [] => []
  | x :: xs => insertDescByCreatedAt x (sortDescByCreatedAt xs)

/-- The message filter of the history query: in the conversation, not
hidden for the caller, and older than the cursor when one is given. -/
def historyFilter (authUserId convId : String) (cursor : Option Nat) (m : Message) : Bool :=
  m.conversationId == convId && !(m.hiddenFor.contains authUserId) &&
    (match cursor with
     | none => true
     | some cu => decide (m.createdAt < cu))

/-- Embeds GET /api/messages (src/app/api/messages/route.ts lines 12-61).
The handler validates only the syntactic shape of userId and never
consults the user collection — this embedding takes none — then
finds-or-creates the conversation between the caller and the given id and
pages the messages visible to the caller (newest page, returned in
ascending order). -/
def getMessages (authUserId userIdRaw : String) (cursor : Option Nat)
    (limitRaw : Option Nat) (freshConvId : String) (now : Nat)
    (convs : List Conversation) (msgs : List Message) :
    GetMessagesResult × List Conversation :=
  let userId := jsTrim userIdRaw
  let limit := min (limitRaw.getD 30) 100
  if userId == "" || !(isValidObjectId userId) then
    (.badRequest "Valid userId is required.", convs)
  else
    let resolved := getOrCreateConversation authUserId userId freshConvId now convs
    let conversation := resolved.1
    let convs1 := resolved.2
    let visible := msgs.filter (historyFilter authUserId conversation.id cursor)
    let page := (sortDescByCreatedAt visible).take limit
    (.ok conversation.id (page.reverse.map (fun m => m.id)), convs1)

/-- C10: a history fetch by an authenticated caller with any syntactically
valid target id finds-or-creates the conversation without checking that a
user with that id exists (the embedded handler takes no user collection),
so on first contact a conversation with the arbitrary or nonexistent
target is created — and the presence authorization check then passes for
that watcher/target pair. -/
theorem getMessages_creates_conversation_without_user_check
    (authUserId userIdRaw freshConvId : String) (cursor : Option Nat)
    (limitRaw : Option Nat) (now : Nat) (convs : List Conversation) (msgs : List Message)
    (hvalid : isValidObjectId (jsTrim userIdRaw) = true)
    (hauth : isValidObjectId authUserId = true)
    (hfirst : findOneByKey convs (buildParticipantKey authUserId (jsTrim userIdRaw)) = none) :
    (∃ ids, (getMessages authUserId userIdRaw cursor limitRaw freshConvId now convs msgs).1
        = .ok freshConvId ids) ∧
    (getMessages authUserId userIdRaw cursor limitRaw freshConvId now convs msgs).2
      = convs ++ [freshConversation authUserId (jsTrim userIdRaw) freshConvId now] ∧
    canWatchPresence authUserId (jsTrim userIdRaw)
      (getMessages authUserId userIdRaw cursor limitRaw freshConvId now convs msgs).2 = true := by
  have hne : (jsTrim userIdRaw == "") = false := by
    cases hb : jsTrim userIdRaw == "" with
    | false => rfl
    | true =>
      rw [eq_of_beq hb] at hvalid
      exact absurd hvalid (by decide)
  have hneA : (authUserId == "") = false := by
    cases hb : authUserId == "" with
    | false => rfl
    | true =>
      rw [eq_of_beq hb] at hauth
      exact absurd hauth (by decide)
  have hcond : (jsTrim userIdRaw == ""
      || !(isValidObjectId (jsTrim userIdRaw))) = false := by
    rw [hne, hvalid]; rfl
  have hres : (getMessages authUserId userIdRaw cursor limitRaw freshConvId now convs msgs).2
      = convs ++ [freshConversation authUserId (jsTrim userIdRaw) freshConvId now] := by
    simp only [getMessages]
    rw [hcond]
    simp only [Bool.false_eq_true, if_false]
    simp only [getOrCreateConversation]
    rw [hfirst]
    rfl
  refine ⟨?_, hres, ?_⟩
  · have hok : (getMessages authUserId userIdRaw cursor limitRaw freshConvId now convs msgs).1
        = .ok freshConvId
          (((sortDescByCreatedAt
              (msgs.filter (historyFilter authUserId freshConvId cursor))).take
            (min (limitRaw.getD 30) 100)).reverse.map (fun m => m.id)) := by
      simp only [getMessages]
      rw [hcond]
      simp only [Bool.false_eq_true, if_false]
      have hid : (getOrCreateConversation authUserId (jsTrim userIdRaw)
          freshConvId now convs).1.id = freshConvId := by
        simp only [getOrCreateConversation]
        rw [hfirst]
      rw [hid]
    exact ⟨_, hok⟩
  · rw [hres]
    by_cases heq : authUserId = jsTrim userIdRaw
    · have hbeq : (authUserId == jsTrim userIdRaw) = true := beq_iff_eq.mpr heq
      simp [canWatchPresence, hneA, hne, hbeq]
    · have hbeq : (authUserId == jsTrim userIdRaw) = false := beq_eq_false_iff_ne.mpr heq
      simp [canWatchPresence, hneA, hne, hbeq, hauth, hvalid, freshConversation]

/-- C10 witness: a fresh caller fetches history against a target id for
which no user record exists anywhere. -/
theorem getMessages_no_user_check_witness :
    (∃ ids, (getMessages "aaaaaaaaaaaaaaaaaaaaaaaa" "dddddddddddddddddddddddd"
        none none "c9" 3 [] []).1 = .ok "c9" ids) ∧
    (getMessages "aaaaaaaaaaaaaaaaaaaaaaaa" "dddddddddddddddddddddddd"
        none none "c9" 3 [] []).2
      = [] ++ [freshConversation "aaaaaaaaaaaaaaaaaaaaaaaa"
          (jsTrim "dddddddddddddddddddddddd") "c9" 3] ∧
    canWatchPresence "aaaaaaaaaaaaaaaaaaaaaaaa" (jsTrim "dddddddddddddddddddddddd")
      (getMessages "aaaaaaaaaaaaaaaaaaaaaaaa" "dddddddddddddddddddddddd"
        none none "c9" 3 [] []).2 = true :=
  getMessages_creates_conversation_without_user_check "aaaaaaaaaaaaaaaaaaaaaaaa"
    "dddddddddddddddddddddddd" "c9" none none 3 [] [] (by decide) (by decide) (by rfl)

/-! ## Conversation list and conversation delete (src/unnamed/part_001) -/

/-- The conversation-list query of GET /api/conversations: conversations
with the caller among the participants and not hidden for the caller. -/
def conversationListFilter (u : String) (convs : List Conversation) : List Conversation :=
  convs.filter (fun c => c.participants.contains u && !(c.hiddenFor.contains u))

/-- The GET /api/conversations item pipeline reduced to the conversation
ids the caller sees: a filtered conversation contributes an item when it
has a participant other than the caller and a user record for that
participant exists. -/
def conversationListIds (u : String) (users : List UserRecord)
    (convs : List Conversation) : List String :=
  (conversationListFilter u convs).filterMap (fun c =>
    match c.participants.find? (fun p => p != u) with
    | none => none
    | some other => if users.any (fun r => r.id == other) then some c.id else none)

inductive ConvDeleteResult
  | badRequest (msg : String)
  | notFound (msg : String)
  | success (conversationId mode : String)
  deriving Repr, DecidableEq

/-- Embeds DELETE /api/conversations (src/unnamed/part_001 lines 113-171):
validate the id, find the conversation among those the caller participates
in, validate the mode; mode=me adds the caller to the conversation's
hiddenFor (if absent) and cascades the hidden flag to every message of the
conversation not yet hidden for the caller; mode=everyone hard-deletes the
messages and the conversation. -/
def deleteConversation (authUserId conversationIdRaw : String) (modeRaw : Option String)
    (convs : List Conversation) (msgs : List Message) :
    ConvDeleteResult × List Conversation × List Message :=
  let conversationId := jsTrim conversationIdRaw
  let mode := jsToLower (jsTrim (modeRaw.getD "everyone"))
  if conversationId == "" || !(isValidObjectId conversationId) then
    (.badRequest "Valid conversationId is required.", convs, msgs)
  else
    match convs.find? (fun c => c.id == conversationId
        && c.participants.contains authUserId) with
    | none => (.notFound "Conversation not found.", convs, msgs)
    | some conversation =>
      if mode != "me" && mode != "everyone" then
        (.badRequest "mode must be me or everyone.", convs, msgs)
      else if mode == "me" then
        let convs1 :=
          if conversation.hiddenFor.contains authUserId then convs
          else convs.map (fun c =>
            if c.id == conversation.id then
              { conversation with hiddenFor := conversation.hiddenFor ++ [authUserId] }
            else c)
        let msgs1 := msgs.map (fun m =>
          if m.conversationId == conversation.id && !(m.hiddenFor.contains authUserId) then
            { m with hiddenFor := m.hiddenFor ++ [authUserId] }
          else m)
        (.success conversationId "me", convs1, msgs1)
      else
        (.success conversationId "everyone",
         convs.filter (fun c => c.id != conversation.id),
         msgs.filter (fun m => m.conversationId != conversation.id))

theorem valid_ne_empty {s : String} (h : isValidObjectId s = true) : (s == "") = false := by
  cases hb : s == "" with
  | false => rfl
  | true =>
    rw [eq_of_beq hb] at h
    exact absurd h (by decide)

/-- C4 counterexample: after A deletes the conversation for themselves, a
message sent by B to A leaves A in the hiddenFor set (only the caller B
could have been unhidden), so the conversation does not reappear in the
list of A. -/
theorem message_from_counterpart_keeps_hidden :
    ((postMessage (fun s => s) "bbbbbbbbbbbbbbbbbbbbbbbb" "aaaaaaaaaaaaaaaaaaaaaaaa"
        "yo" "f2" "m2" 3
        [⟨"aaaaaaaaaaaaaaaaaaaaaaaa", false, 0⟩, ⟨"bbbbbbbbbbbbbbbbbbbbbbbb", false, 0⟩]
        (deleteConversation "aaaaaaaaaaaaaaaaaaaaaaaa" "cccccccccccccccccccccccc" (some "me")
          [freshConversation "aaaaaaaaaaaaaaaaaaaaaaaa" "bbbbbbbbbbbbbbbbbbbbbbbb"
            "cccccccccccccccccccccccc" 0] []).2.1
        (deleteConversation "aaaaaaaaaaaaaaaaaaaaaaaa" "cccccccccccccccccccccccc" (some "me")
          [freshConversation "aaaaaaaaaaaaaaaaaaaaaaaa" "bbbbbbbbbbbbbbbbbbbbbbbb"
            "cccccccccccccccccccccccc" 0] []).2.2 none).2.2.1.map (fun c => c.hiddenFor))
      = [["aaaaaaaaaaaaaaaaaaaaaaaa"]] ∧
    conversationListIds "aaaaaaaaaaaaaaaaaaaaaaaa"
      [⟨"aaaaaaaaaaaaaaaaaaaaaaaa", false, 0⟩, ⟨"bbbbbbbbbbbbbbbbbbbbbbbb", false, 0⟩]
      ((postMessage (fun s => s) "bbbbbbbbbbbbbbbbbbbbbbbb" "aaaaaaaaaaaaaaaaaaaaaaaa"
        "yo" "f2" "m2" 3
        [⟨"aaaaaaaaaaaaaaaaaaaaaaaa", false, 0⟩, ⟨"bbbbbbbbbbbbbbbbbbbbbbbb", false, 0⟩]
        (deleteConversation "aaaaaaaaaaaaaaaaaaaaaaaa" "cccccccccccccccccccccccc" (some "me")
          [freshConversation "aaaaaaaaaaaaaaaaaaaaaaaa" "bbbbbbbbbbbbbbbbbbbbbbbb"
            "cccccccccccccccccccccccc" 0] []).2.1
        (deleteConversation "aaaaaaaaaaaaaaaaaaaaaaaa" "cccccccccccccccccccccccc" (some "me")
          [freshConversation "aaaaaaaaaaaaaaaaaaaaaaaa" "bbbbbbbbbbbbbbbbbbbbbbbb"
            "cccccccccccccccccccccccc" 0] []).2.2 none).2.2.1) = [] := ⟨rfl, rfl⟩

/-- C4 amended: after deleteConversation(mode=me) by A the conversation is
excluded from the list of A while still included in the list of B; a
subsequent message sent by B to A does not remove A from hiddenFor (the
resolver clears only the hidden flag of the calling side), so the
conversation stays hidden for A; it reappears for A only when A
re-initiates contact, whose resolve call removes A from hiddenFor. -/
theorem deleteForMe_reappears_only_when_caller_reinitiates
    (san : String → String) (A B cid rawText f2 f3 : String) (n2 n3 : Nat)
    (uA uB : UserRecord) (msgs0 : List Message)
    (hAB : A ≠ B)
    (hA : isValidObjectId A = true)
    (hcid : isValidObjectId cid = true)
    (htrimA : jsTrim A = A) (htrimcid : jsTrim cid = cid)
    (huA : uA.id = A) (huB : uB.id = B)
    (htext : jsSlice (sanitizeMessage san rawText) 2000 ≠ "") :
    (let del := deleteConversation A cid (some "me") [freshConversation A B cid 0] msgs0
     let post := postMessage san B A rawText f2 "m2" n2 [uA, uB] del.2.1 del.2.2 none
     let re := getOrCreateConversation A B f3 n3 post.2.2.1
     conversationListIds A [uA, uB] del.2.1 = [] ∧
     conversationListIds B [uA, uB] del.2.1 = [cid] ∧
     (∀ c ∈ post.2.2.1, c.hiddenFor = [A]) ∧
     conversationListIds A [uA, uB] post.2.2.1 = [] ∧
     conversationListIds A [uA, uB] re.2 = [cid]) := by
  have hbAB : (A == B) = false := beq_eq_false_iff_ne.mpr hAB
  have hbBA : (B == A) = false := beq_eq_false_iff_ne.mpr (Ne.symm hAB)
  have hneA : (A == "") = false := valid_ne_empty hA
  have hneCid : (cid == "") = false := valid_ne_empty hcid
  have htextb : (jsSlice (sanitizeMessage san rawText) 2000 == "") = false :=
    beq_eq_false_iff_ne.mpr htext
  have hmodeMe : jsToLower (jsTrim "me") = "me" := rfl
  have hkeyBA : buildParticipantKey B A = buildParticipantKey A B :=
    buildParticipantKey_comm B A
  have hdel : (deleteConversation A cid (some "me")
      [freshConversation A B cid 0] msgs0).2.1
      = [{ freshConversation A B cid 0 with hiddenFor := [A] }] := by
    simp only [deleteConversation]
    rw [htrimcid]
    rw [show (cid == "" || !(isValidObjectId cid)) = false by rw [hneCid, hcid]; rfl]
    simp [hmodeMe, freshConversation]
  dsimp only
  rw [hdel]
  have hcondA : (A == "" || !(isValidObjectId A)) = false := by rw [hneA, hA]; rfl
  have hfindU : ([uA, uB].find? (fun r => r.id == A)) = some uA := by
    simp [List.find?, huA]
  have hpost : ∀ msgsIn, (postMessage san B A rawText f2 "m2" n2 [uA, uB]
      [{ freshConversation A B cid 0 with hiddenFor := [A] }] msgsIn none).2.2.1
      = [{ freshConversation A B cid 0 with
            hiddenFor := [A],
            lastMessageText := jsSlice (sanitizeMessage san rawText) 2000,
            lastMessageAt := n2 }] := by
    intro msgsIn
    simp only [postMessage]
    rw [htrimA, hcondA, htextb]
    simp only [Bool.false_eq_true, if_false]
    rw [hfindU]
    simp only [getOrCreateConversation, findOneByKey]
    rw [hkeyBA]
    simp [freshConversation, hbBA, Ne.symm hAB]
  rw [hpost]
  have hre : (getOrCreateConversation A B f3 n3
      [{ freshConversation A B cid 0 with
          hiddenFor := [A],
          lastMessageText := jsSlice (sanitizeMessage san rawText) 2000,
          lastMessageAt := n2 }]).2
      = [{ freshConversation A B cid 0 with
            hiddenFor := [],
            lastMessageText := jsSlice (sanitizeMessage san rawText) 2000,
            lastMessageAt := n2 }] := by
    simp only [getOrCreateConversation, findOneByKey]
    simp [freshConversation]
  rw [hre]
  have hbneAB : (A != B) = true := by simp [bne, hbAB]
  have hbneBA : (B != A) = true := by simp [bne, hbBA]
  have hbneAA : (A != A) = false := by simp [bne]
  have hbneBB : (B != B) = false := by simp [bne]
  refine ⟨?_, ?_, ?_, ?_, ?_⟩
  · simp [conversationListIds, conversationListFilter, freshConversation]
  · simp [conversationListIds, conversationListFilter, freshConversation, List.find?,
      hbneAB, hbneBB, hbBA, hbAB, hAB, Ne.symm hAB, huA, huB]
  · intro c hc
    rw [List.mem_singleton] at hc
    rw [hc]
  · simp [conversationListIds, conversationListFilter, freshConversation]
  · simp [conversationListIds, conversationListFilter, freshConversation, List.find?,
      hbneAA, hbneBA, hbAB, hbBA, hAB, Ne.symm hAB, huA, huB]

/-- C4 witness: the amended scenario evaluated for two concrete users and
their conversation. -/
theorem deleteForMe_reappears_witness :
    (let del := deleteConversation "aaaaaaaaaaaaaaaaaaaaaaaa" "cccccccccccccccccccccccc"
       (some "me")
       [freshConversation "aaaaaaaaaaaaaaaaaaaaaaaa" "bbbbbbbbbbbbbbbbbbbbbbbb"
         "cccccccccccccccccccccccc" 0] []
     let post := postMessage (fun s => s) "bbbbbbbbbbbbbbbbbbbbbbbb"
       "aaaaaaaaaaaaaaaaaaaaaaaa" "yo" "f2" "m2" 3
       [⟨"aaaaaaaaaaaaaaaaaaaaaaaa", false, 0⟩, ⟨"bbbbbbbbbbbbbbbbbbbbbbbb", false, 0⟩]
       del.2.1 del.2.2 none
     let re := getOrCreateConversation "aaaaaaaaaaaaaaaaaaaaaaaa" "bbbbbbbbbbbbbbbbbbbbbbbb"
       "f3" 4 post.2.2.1
     conversationListIds "aaaaaaaaaaaaaaaaaaaaaaaa"
       [⟨"aaaaaaaaaaaaaaaaaaaaaaaa", false, 0⟩, ⟨"bbbbbbbbbbbbbbbbbbbbbbbb", false, 0⟩]
       del.2.1 = [] ∧
     conversationListIds "bbbbbbbbbbbbbbbbbbbbbbbb"
       [⟨"aaaaaaaaaaaaaaaaaaaaaaaa", false, 0⟩, ⟨"bbbbbbbbbbbbbbbbbbbbbbbb", false, 0⟩]
       del.2.1 = ["cccccccccccccccccccccccc"] ∧
     (∀ c ∈ post.2.2.1, c.hiddenFor = ["aaaaaaaaaaaaaaaaaaaaaaaa"]) ∧
     conversationListIds "aaaaaaaaaaaaaaaaaaaaaaaa"
       [⟨"aaaaaaaaaaaaaaaaaaaaaaaa", false, 0⟩, ⟨"bbbbbbbbbbbbbbbbbbbbbbbb", false, 0⟩]
       post.2.2.1 = [] ∧
     conversationListIds "aaaaaaaaaaaaaaaaaaaaaaaa"
       [⟨"aaaaaaaaaaaaaaaaaaaaaaaa", false, 0⟩, ⟨"bbbbbbbbbbbbbbbbbbbbbbbb", false, 0⟩]
       re.2 = ["cccccccccccccccccccccccc"]) :=
  deleteForMe_reappears_only_when_caller_reinitiates (fun s => s)
    "aaaaaaaaaaaaaaaaaaaaaaaa" "bbbbbbbbbbbbbbbbbbbbbbbb" "cccccccccccccccccccccccc"
    "yo" "f2" "f3" 3 4
    ⟨"aaaaaaaaaaaaaaaaaaaaaaaa", false, 0⟩ ⟨"bbbbbbbbbbbbbbbbbbbbbbbb", false, 0⟩ []
    (by decide) (by decide) (by decide) (by rfl) (by rfl) (by rfl) (by rfl) (by decide)

end ReelOnGo
